import Mathlib

/-!
Shallow embedding of `src/computeTVL/index.ts` from hubble-exchange/defillama-sdk.

Modelling conventions:
* JavaScript numbers are modelled as `JSNum`: an exact rational, or `nan`.
  (Infinities never arise on the paths of this pipeline: every divisor is a
  nonzero power of ten, and `10 ** d` is only taken at integer `d`.)
* JavaScript objects used as string-keyed maps (`Balances`,
  `ReturnedTokenBalances`, `TokenPrices`) are modelled as insertion-ordered
  association lists with JS assignment semantics (`objSet`).
* The external collaborators (`multiCall` from `../abi`, `getTokenPrices` and
  `getHistoricalTokenPrices` from `./prices`) are not part of the source under
  verification; they are modelled by an explicit `Env` of response functions,
  and the spec's description of their contracts.  Console logging is modelled
  as a list of emitted log strings; network batches as a trace of `NetCall`s.
-/

/-- A JavaScript number: an exact rational or NaN. -/
inductive JSNum where
  | num (q : ℚ)
  | nan
deriving DecidableEq, Repr

/-- JS addition: NaN propagates, otherwise exact. -/
def jsAdd : JSNum → JSNum → JSNum
  | JSNum.num a, JSNum.num b => JSNum.num (a + b)
  | _, _ => JSNum.nan

/-- JS multiplication: NaN propagates, otherwise exact. -/
def jsMul : JSNum → JSNum → JSNum
  | JSNum.num a, JSNum.num b => JSNum.num (a * b)
  | _, _ => JSNum.nan

/-- JS division.  NaN propagates.  Division by zero (JS Infinity/NaN) is
mapped to NaN; it is unreachable in this pipeline since every divisor is a
nonzero power of ten. -/
def jsDiv : JSNum → JSNum → JSNum
  | JSNum.num a, JSNum.num b => if b = 0 then JSNum.nan else JSNum.num (a / b)
  | _, _ => JSNum.nan

/-- JS exponentiation `10 ** d`.  NaN propagates; at an integer exponent the
result is the exact power of ten.  A fractional exponent (irrational result,
never produced by an `erc20:decimals` output) is mapped to NaN. -/
def jsPow10 : JSNum → JSNum
  | JSNum.num q => if q.den = 1 then JSNum.num ((10 : ℚ) ^ q.num) else JSNum.nan
  | JSNum.nan => JSNum.nan

/-- Numeric value of a list of decimal digits. -/
def digitsVal (cs : List Char) : ℕ :=
  cs.foldl (fun a c => a * 10 + (c.toNat - 48)) 0

/-- Parses an unsigned decimal numeral (digits, optionally with a fractional
part), as accepted by JS `Number()` on plain decimal strings. -/
def parseUnsigned (cs : List Char) : Option ℚ :=
  let intPart := cs.takeWhile Char.isDigit
  let rest := cs.dropWhile Char.isDigit
  match rest with
  | [] => if intPart.isEmpty then none else some ((digitsVal intPart : ℚ))
  | '.' :: frac =>
      if frac.all Char.isDigit ∧ ¬ (intPart.isEmpty ∧ frac.isEmpty) then
        some ((digitsVal intPart : ℚ) + (digitsVal frac : ℚ) / (10 : ℚ) ^ frac.length)
      else none
  | _ => none

/-- JS `Number(string)`: trims whitespace, the empty string is 0, an optional
sign followed by a plain decimal numeral parses exactly, and anything else is
NaN.  (Hexadecimal, exponent and `Infinity` forms never occur as balance or
decimals strings in this pipeline and are mapped to NaN.) -/
def jsParseNumber (s : String) : JSNum :=
  let t := s.trim
  if t = "" then JSNum.num 0
  else
    match t.toList with
    | '+' :: rest => ((parseUnsigned rest).map JSNum.num).getD JSNum.nan
    | '-' :: rest =>
        match parseUnsigned rest with
        | some q => JSNum.num (-q)
        | none => JSNum.nan
    | cs => ((parseUnsigned cs).map JSNum.num).getD JSNum.nan

/-- A JavaScript value as it appears among the balance values: a string, a
number, or a BigNumber-like object whose `.toFixed()` yields the given
fixed-point decimal string. -/
inductive JSValue where
  | str (s : String)
  | num (n : JSNum)
  | big (fixed : String)
deriving DecidableEq, Repr

/-- JS `Number(v)` on a balance value.  For a BigNumber-like object JS
converts through its numeric primitive, which agrees with parsing its decimal
string (this case is unreachable after normalization, which has already
converted objects to strings). -/
def jsToNumber : JSValue → JSNum
  | JSValue.str s => jsParseNumber s
  | JSValue.num n => n
  | JSValue.big s => jsParseNumber s

/-- Insertion-ordered string-keyed map: the model of a JS object. -/
abbrev Obj (α : Type) := List (String × α)

/-- JS property read `m[k]`: the entry for `k`, if present. -/
def objGet {α : Type} (m : Obj α) (k : String) : Option α :=
  (m.find? (fun p => p.1 = k)).map (fun p => p.2)

/-- JS property assignment `m[k] = v`: updates an existing entry in place (its
position is kept), otherwise appends a new entry. -/
def objSet {α : Type} (m : Obj α) (k : String) (v : α) : Obj α :=
  if m.any (fun p => p.1 = k) then
    m.map (fun p => if p.1 = k then (k, v) else p)
  else
    m ++ [(k, v)]

/-- One entry of a `multiCall` batch result: the call's target together with
its success flag and (when successful) its string output. -/
structure MCall where
  target : String
  success : Bool
  output : String
deriving DecidableEq, Repr

/-- A batched on-chain request, as recorded in the pipeline's network trace. -/
structure NetCall where
  abi : String
  chain : Option String
  targets : List String
deriving DecidableEq, Repr

/-- The environment of external collaborators: per-batch rejection (a rejected
promise), per-call responses, and the price sources.  Rate limiting
(`getCoingeckoLock`) and retry counts are internal to the price collaborator
and are absorbed into its response functions. -/
structure Env where
  reject : String → Option String → Bool
  respond : String → Option String → String → Option String
  fetchLive : String → String → Option JSNum
  fetchHist : String → Int → String → Option JSNum

/-- Modelled from the spec: `multiCall` (from `src/abi`, not under `src/`)
issues one batched on-chain request when the call list is nonempty and returns
one per-target entry with an independent success flag; an empty batch is a
no-op returning an empty result set without issuing a call.  The first
component is the trace of network calls issued. -/
def multiCallModel (env : Env) (abi : String) (chain : Option String)
    (targets : List String) : List NetCall × Except Unit (List MCall) :=
  if targets.isEmpty then ([], Except.ok [])
  else
    ([⟨abi, chain, targets⟩],
      if env.reject abi chain then Except.error ()
      else Except.ok (targets.map (fun t =>
        match env.respond abi chain t with
        | some out => ⟨t, true, out⟩
        | none => ⟨t, false, ""⟩)))

/-- Embeds `tokenMulticall` (source lines 19–28): a batched call over the given
addresses whose result keeps only the successful entries. -/
def tokenMulticall (env : Env) (addresses : List String) (abi : String)
    (chain : Option String) : List NetCall × Except Unit (List MCall) :=
  let r := multiCallModel env abi chain addresses
  (r.1, r.2.map (fun out => out.filter (fun call => call.success)))

/-- Modelled from the spec: `getTokenPrices` (from `src/computeTVL/prices.ts`,
not under `src/`) resolves live prices for a bucket of ids: an id already in
the pre-seeded cache (keyed as `pfx ++ lowercased id`) is served from the
cache, otherwise it is fetched from the bulk endpoint; an id with no price is
absent from the result.  Keys of the returned mapping are always lowercased
and unprefixed. -/
def getTokenPrices (env : Env) (ids : List String) (endpoint : String)
    (knownTokenPrices : Obj JSNum) (pfx : String) : Obj JSNum :=
  ids.filterMap (fun id =>
    let k := id.toLower
    match objGet knownTokenPrices (pfx ++ k) with
    | some p => some (k, p)
    | none => (env.fetchLive endpoint k).map (fun p => (k, p)))

/-- Modelled from the spec: `getHistoricalTokenPrices` (from
`src/computeTVL/prices.ts`, not under `src/`) resolves a price per token from
the per-coin historical endpoint; an individual failure yields "no price" for
that token only.  Keys of the returned mapping are always lowercased. -/
def getHistoricalTokenPrices (env : Env) (ids : List String) (base : String)
    (ts : Int) : Obj JSNum :=
  ids.filterMap (fun id => (env.fetchHist base ts id).map (fun p => (id.toLower, p)))

/-- The raw balances argument: a map from token key to balance value, or a
list of `{address, balance}` records. -/
inductive RawBalances where
  | map (m : Obj JSValue)
  | list (l : List (String × JSValue))
deriving Repr

/-- Timestamp argument: `"now"` or a fixed past instant. -/
inductive Timestamp where
  | now
  | past (t : Int)
deriving DecidableEq, Repr

/-- The native-asset sentinel address. -/
def zeroAddress : String := "0x0000000000000000000000000000000000000000"

/-- Embeds the list-shaped branch (source lines 47–71): one batched decimals
lookup over all listed addresses (its raw, index-aligned output), then each
record's balance is scaled by `10 ** decimals` — 18 assumed for the zero
address on failure, NaN otherwise — and stored under its address.  The source
stores `(...).toString()`; a JS number round-trips exactly through its string
form, so the numeric value is stored directly.  A rejected batch rejects the
whole pipeline. -/
def balancesPhase (env : Env) : RawBalances → Except Unit (List NetCall × Obj JSValue)
  | RawBalances.map m => Except.ok ([], m)
  | RawBalances.list l =>
      let r := multiCallModel env "erc20:decimals" none (l.map (fun t => t.1))
      match r.2 with
      | Except.error e => Except.error e
      | Except.ok callTokenDecimals =>
          Except.ok (r.1, (l.zip callTokenDecimals).foldl
            (fun acc entry =>
              let dec : JSNum :=
                if entry.2.success then jsParseNumber entry.2.output
                else if entry.1.1 = zeroAddress then JSNum.num 18
                else JSNum.nan
              objSet acc entry.1.1
                (JSValue.num (jsMul (jsToNumber entry.1.2) (jsPow10 dec)))) [])

/-- The result of the normalization loop (source lines 75–100): the normalized
balances object and the three classified key buckets. -/
structure NormResult where
  normalized : Obj JSValue
  ethereumAddresses : List String
  bscAddresses : List String
  nonEthereumTokenIds : List String
deriving Repr

/-- One iteration of the normalization loop (source lines 79–100): the zero
address is rewritten to `"ethereum"` with its balance divided by `10 ** 18`;
object values are converted via `.toFixed()`; the (rewritten) key is
classified by prefix into one of the three buckets. -/
def normalizeStep (acc : NormResult) (kv : String × JSValue) : NormResult :=
  let name := if kv.1 = zeroAddress then "ethereum" else kv.1
  let bal0 :=
    if kv.1 = zeroAddress then
      JSValue.num (jsDiv (jsToNumber kv.2) (JSNum.num ((10 : ℚ) ^ (18 : ℕ))))
    else kv.2
  let bal :=
    match bal0 with
    | JSValue.big s => JSValue.str s
    | v => v
  let acc1 := { acc with normalized := objSet acc.normalized name bal }
  if name.startsWith "0x" then
    { acc1 with ethereumAddresses := acc1.ethereumAddresses ++ [name] }
  else if name.startsWith "bsc:" then
    { acc1 with bscAddresses := acc1.bscAddresses ++ [name.drop "bsc:".length] }
  else
    { acc1 with nonEthereumTokenIds := acc1.nonEthereumTokenIds ++ [name] }

/-- The whole normalization loop over the balances object. -/
def normalizeAndClassify (balances : Obj JSValue) : NormResult :=
  balances.foldl normalizeStep ⟨[], [], [], []⟩

/-- The three per-bucket price result sets, named as in the source. -/
structure PriceSets where
  ethereumTokenPrices : Obj JSNum
  bscTokenPrices : Obj JSNum
  nonEthereumTokenPrices : Obj JSNum
deriving Repr

/-- The four metadata batch results, named as in the source; each is a
possibly-rejected promise of successful call entries. -/
structure MetaSets where
  allTokenSymbols : Except Unit (List MCall)
  allTokenDecimals : Except Unit (List MCall)
  bscTokenSymbols : Except Unit (List MCall)
  bscTokenDecimals : Except Unit (List MCall)

/-- Embeds the four metadata lookups (source lines 102–109), returning the
network trace alongside the result sets. -/
def metadataPhase (env : Env) (norm : NormResult) : List NetCall × MetaSets :=
  let d := tokenMulticall env norm.ethereumAddresses "erc20:decimals" none
  let s := tokenMulticall env norm.ethereumAddresses "erc20:symbol" none
  let bd := tokenMulticall env norm.bscAddresses "erc20:decimals" (some "bsc")
  let bs := tokenMulticall env norm.bscAddresses "erc20:symbol" (some "bsc")
  (d.1 ++ s.1 ++ bd.1 ++ bs.1, ⟨s.2, d.2, bs.2, bd.2⟩)

/-- Embeds the price-resolution dispatch (source lines 110–158): live bulk
lookups per bucket at `"now"`, per-token historical lookups otherwise. -/
def pricesPhase (env : Env) (norm : NormResult) (timestamp : Timestamp)
    (knownTokenPrices : Obj JSNum) : PriceSets :=
  match timestamp with
  | Timestamp.now =>
      { nonEthereumTokenPrices :=
          getTokenPrices env norm.nonEthereumTokenIds "v3/simple/price?ids"
            knownTokenPrices ""
        bscTokenPrices :=
          getTokenPrices env norm.bscAddresses
            "v3/simple/token_price/binance-smart-chain?contract_addresses"
            knownTokenPrices "bsc:"
        ethereumTokenPrices :=
          getTokenPrices env norm.ethereumAddresses
            "v3/simple/token_price/ethereum?contract_addresses"
            knownTokenPrices "" }
  | Timestamp.past t =>
      { nonEthereumTokenPrices :=
          getHistoricalTokenPrices env norm.nonEthereumTokenIds
            "https://api.coingecko.com/api/v3/coins" t
        bscTokenPrices :=
          getHistoricalTokenPrices env norm.bscAddresses
            "https://api.coingecko.com/api/v3/coins/binance-smart-chain/contract" t
        ethereumTokenPrices :=
          getHistoricalTokenPrices env norm.ethereumAddresses
            "https://api.coingecko.com/api/v3/coins/ethereum/contract" t }

/-- Per-token valuation result, as returned by the `usdAmounts` map callback. -/
structure TokenResult where
  usdAmount : JSNum
  tokenSymbol : String
deriving DecidableEq, Repr

/-- Looks up a batch result by target — `.find(call => call.input.target ===
addr)?.output` — the by-address (never positional) lookup of the source. -/
def findOutput (calls : List MCall) (addr : String) : Option String :=
  (calls.find? (fun call => call.target = addr)).map (fun call => call.output)

/-- The missing-decimals warning (source lines 192–196). -/
def decimalsWarning (tokenSymbol address : String) : String :=
  "Couldnt query decimals() for token " ++ tokenSymbol ++ " (" ++ address ++
    ") so well ignore and assume its amount is 0"

/-- The missing-price notice (source lines 208–212). -/
def missingPriceLog (address : String) : String :=
  "Couldnt find the price of token at " ++ address ++
    ", assuming a price of 0 for it..."

/-- The per-token error log (source lines 220–223), emitted unconditionally. -/
def errorLog (address : String) : String :=
  "Error on token " ++ address ++ ", well just assume its price is 0..."

/-- The verbose per-token summary line (source lines 233–236).  The source
formats it with `padEnd` and `humanizeNumber` (from
`src/computeTVL/humanizeNumber.ts`, not under `src/`); the formatted text is
modelled opaquely by the token's symbol tag. -/
def summaryLine (t : TokenResult) : String :=
  "summary " ++ t.tokenSymbol

/-- The price fallback (source lines 207–214): a missing price is treated as
0, with an optional informational log. -/
def defaultPrice (verbose : Bool) (address : String) :
    Option JSNum → JSNum × List String
  | none => (JSNum.num 0, if verbose then [missingPriceLog address] else [])
  | some p => (p, [])

/-- Embeds the ledger-prefixed branch of the per-token callback (source lines
182–201): symbol by address (defaulting to `UNKNOWN (<key>)`), decimals by
address (a missing entry forces amount 0 with an optional warning, otherwise
`amount = Number(balance) / 10 ** Number(decimals)`), and the price looked up
by the lowercased real address.  Awaiting a rejected metadata batch raises. -/
def valuateChain (chainTokenPrices : Obj JSNum)
    (chainTokenSymbols chainTokenDecimals : Except Unit (List MCall))
    (verbose : Bool) (address normalizedAddress : String) (balance : JSValue) :
    Except Unit (String × JSNum × Option JSNum × List String) := do
  let syms ← chainTokenSymbols
  let tokenSymbol :=
    (findOutput syms normalizedAddress).getD ("UNKNOWN (" ++ address ++ ")")
  let decs ← chainTokenDecimals
  let amountAndLogs : JSNum × List String :=
    match findOutput decs normalizedAddress with
    | none =>
        (JSNum.num 0,
          if verbose then [decimalsWarning tokenSymbol address] else [])
    | some d =>
        (jsDiv (jsToNumber balance) (jsPow10 (jsParseNumber d)), [])
  Except.ok (tokenSymbol, amountAndLogs.1,
    objGet chainTokenPrices normalizedAddress.toLower, amountAndLogs.2)

/-- Steps 1–2 of the per-token callback (source lines 165–206): per-chain
dispatch for `0x`/`bsc:` keys (the `bsc:` prefix stripped), or the opaque-id
branch (symbol is the key itself, amount is `Number(balance)`, price looked up
in the opaque-id mapping).  The price is not yet defaulted. -/
def valuateCore (ps : PriceSets) (ms : MetaSets) (verbose : Bool)
    (address : String) (balance : JSValue) :
    Except Unit (String × JSNum × Option JSNum × List String) :=
  if address.startsWith "0x" || address.startsWith "bsc:" then
    if address.startsWith "bsc:" then
      valuateChain ps.bscTokenPrices ms.bscTokenSymbols ms.bscTokenDecimals
        verbose address (address.drop "bsc:".length) balance
    else
      valuateChain ps.ethereumTokenPrices ms.allTokenSymbols ms.allTokenDecimals
        verbose address address balance
  else
    Except.ok (address, jsToNumber balance,
      objGet ps.nonEthereumTokenPrices address.toLower, [])

/-- The whole try-block of the per-token callback (source lines 164–218,
before the state updates): steps 1–2 followed by the price fallback. -/
def valuateTry (ps : PriceSets) (ms : MetaSets) (verbose : Bool)
    (address : String) (balance : JSValue) :
    Except Unit (String × JSNum × JSNum × List String) := do
  let core ← valuateCore ps ms verbose address balance
  match core with
  | (tokenSymbol, amount, priceFound, logs1) =>
      let pr := defaultPrice verbose address priceFound
      Except.ok (tokenSymbol, amount, pr.1, logs1 ++ pr.2)

/-- Embeds `addTokenBalance` (source lines 30–36):
`balances[symbol] = (balances[symbol] || 0) + amount`.  JS `||` treats NaN
(and 0) as falsy, so an existing NaN entry is replaced by 0 before adding. -/
def addTokenBalance (balances : Obj JSNum) (symbol : String) (amount : JSNum) :
    Obj JSNum :=
  let old : JSNum :=
    match objGet balances symbol with
    | none => JSNum.num 0
    | some JSNum.nan => JSNum.num 0
    | some (JSNum.num q) => if q = 0 then JSNum.num 0 else JSNum.num q
  objSet balances symbol (jsAdd old amount)

/-- The aggregation state threaded through the per-token callbacks: the two
per-symbol maps, the list of per-token results, and the emitted logs. -/
structure VState where
  tokenBalances : Obj JSNum
  usdTokenBalances : Obj JSNum
  results : List TokenResult
  logs : List String
deriving Repr

/-- One per-token callback of the `usdAmounts` map (source lines 161–229): on
success the two per-symbol maps are updated and `{usdAmount, tokenSymbol}` is
returned; any exception raised inside the try-block yields `usdAmount = 0`
with symbol `ERROR <key>`, the maps untouched, and an unconditional error
log. -/
def valuationStep (ps : PriceSets) (ms : MetaSets) (verbose : Bool)
    (st : VState) (kv : String × JSValue) : VState :=
  match valuateTry ps ms verbose kv.1 kv.2 with
  | Except.ok (tokenSymbol, amount, price, ls) =>
      let usdAmount := jsMul amount price
      { tokenBalances := addTokenBalance st.tokenBalances tokenSymbol amount
        usdTokenBalances :=
          addTokenBalance st.usdTokenBalances tokenSymbol usdAmount
        results := st.results ++ [⟨usdAmount, tokenSymbol⟩]
        logs := st.logs ++ ls }
  | Except.error _ =>
      { st with
          results := st.results ++ [⟨JSNum.num 0, "ERROR " ++ kv.1⟩]
          logs := st.logs ++ [errorLog kv.1] }

/-- All per-token callbacks over the normalized balances. -/
def runValuation (ps : PriceSets) (ms : MetaSets) (verbose : Bool)
    (entries : Obj JSValue) : VState :=
  entries.foldl (valuationStep ps ms verbose) ⟨[], [], [], []⟩

/-- The final reduce (source lines 231–239):
`(await Promise.all(usdAmounts)).reduce((sum, token) => sum + token.usdAmount, 0)`. -/
def sumUsd (results : List TokenResult) : JSNum :=
  results.foldl (fun sum token => jsAdd sum token.usdAmount) (JSNum.num 0)

/-- The value returned by the default export, plus the network trace and the
emitted logs of the run. -/
structure PipelineResult where
  usdTvl : JSNum
  usdTokenBalances : Obj JSNum
  tokenBalances : Obj JSNum
  trace : List NetCall
  logs : List String
deriving Repr

/-- Embeds the default export of `src/computeTVL/index.ts` end to end:
balances conversion, normalization and classification, the four metadata
batches, per-bucket price resolution, the per-token valuations, and the final
sum.  A rejection of the list-branch decimals batch rejects the whole call. -/
def computeTVL (env : Env) (rawBalances : RawBalances) (timestamp : Timestamp)
    (verbose : Bool) (knownTokenPrices : Obj JSNum) :
    Except Unit PipelineResult :=
  match balancesPhase env rawBalances with
  | Except.error e => Except.error e
  | Except.ok (trace0, balances) =>
      let norm := normalizeAndClassify balances
      let meta := metadataPhase env norm
      let ps := pricesPhase env norm timestamp knownTokenPrices
      let st := runValuation ps meta.2 verbose norm.normalized
      Except.ok
        { usdTvl := sumUsd st.results
          usdTokenBalances := st.usdTokenBalances
          tokenBalances := st.tokenBalances
          trace := trace0 ++ meta.1
          logs := st.logs ++
            (if verbose then st.results.map summaryLine else []) }

/-- The per-token valuation result of a single key–balance pair, computed in
isolation from the aggregation state (the `{usdAmount, tokenSymbol}` the
callback returns). -/
def tokenResultOf (ps : PriceSets) (ms : MetaSets) (verbose : Bool)
    (kv : String × JSValue) : TokenResult :=
  match valuateTry ps ms verbose kv.1 kv.2 with
  | Except.ok (tokenSymbol, amount, price, _) => ⟨jsMul amount price, tokenSymbol⟩
  | Except.error _ => ⟨JSNum.num 0, "ERROR " ++ kv.1⟩

/-- The structure the caller receives: `{usdTvl, usdTokenBalances,
tokenBalances}` (trace and logs are observation artifacts of the model). -/
def returnedStructure (out : PipelineResult) : JSNum × Obj JSNum × Obj JSNum :=
  (out.usdTvl, out.usdTokenBalances, out.tokenBalances)

/-! ### Supporting lemmas -/

theorem objSet_replace_pred {α : Type} (k : String) (v : α) (k' : String) :
    (fun p : String × α => decide ((if p.1 = k then (k, v) else p).1 = k')) =
      (fun p : String × α => decide (p.1 = k')) := by
  funext p
  by_cases hp : p.1 = k
  · simp [hp]
  · simp [hp]

theorem objGet_objSet_self {α : Type} (m : Obj α) (k : String) (v : α) :
    objGet (objSet m k v) k = some v := by
  unfold objGet objSet
  by_cases ha : m.any (fun p => p.1 = k)
  · simp only [ha, if_true, List.find?_map]
    have hpred : ((fun p : String × α => decide (p.1 = k)) ∘
        fun p => if p.1 = k then (k, v) else p) =
        (fun p : String × α => decide (p.1 = k)) := by
      funext p
      by_cases hp : p.1 = k <;> simp [hp]
    rw [Function.comp_def]
    rw [objSet_replace_pred k v k]
    obtain ⟨x, hx, hxk⟩ := List.any_eq_true.mp ha
    cases hfind : m.find? (fun p => decide (p.1 = k)) with
    | none =>
        rw [List.find?_eq_none] at hfind
        exact absurd hxk (by simpa using hfind x hx)
    | some q =>
        have hq : q.1 = k := by simpa using List.find?_some hfind
        simp [hq]
  · simp only [ha, if_false, List.find?_append]
    have hnone : m.find? (fun p => decide (p.1 = k)) = none := by
      rw [List.find?_eq_none]
      intro x hx
      simp only [decide_eq_true_eq]
      intro hc
      exact ha (List.any_eq_true.mpr ⟨x, hx, by simp [hc]⟩)
    simp [hnone, List.find?]

theorem objGet_objSet_ne {α : Type} (m : Obj α) (k k' : String) (v : α)
    (h : k' ≠ k) : objGet (objSet m k v) k' = objGet m k' := by
  unfold objGet objSet
  by_cases ha : m.any (fun p => p.1 = k)
  · simp only [ha, if_true, List.find?_map]
    rw [Function.comp_def]
    rw [objSet_replace_pred k v k']
    cases hfind : m.find? (fun p => decide (p.1 = k')) with
    | none => simp
    | some q =>
        have hq : q.1 = k' := by simpa using List.find?_some hfind
        have hqk : ¬ q.1 = k := by rw [hq]; exact h
        simp [hqk]
  · have h1 : List.find? (fun p => decide (p.1 = k')) [(k, v)] = none := by
      simp [List.find?, Ne.symm h]
    simp [ha, List.find?_append, h1]

theorem jsAdd_zero (x : JSNum) : jsAdd x (JSNum.num 0) = x := by
  cases x with
  | num q => simp [jsAdd]
  | nan => rfl

theorem jsMul_zero_left (p : JSNum) (h : p ≠ JSNum.nan) :
    jsMul (JSNum.num 0) p = JSNum.num 0 := by
  cases p with
  | num q => simp [jsMul]
  | nan => exact absurd rfl h

theorem jsMul_zero_right (a : JSNum) (h : a ≠ JSNum.nan) :
    jsMul a (JSNum.num 0) = JSNum.num 0 := by
  cases a with
  | num q => simp [jsMul]
  | nan => exact absurd rfl h

theorem jsMul_nan_left (p : JSNum) : jsMul JSNum.nan p = JSNum.nan := by
  cases p <;> rfl

theorem jsDiv_nan_left (p : JSNum) : jsDiv JSNum.nan p = JSNum.nan := by
  cases p <;> rfl

theorem valuationStep_results (ps : PriceSets) (ms : MetaSets) (v : Bool)
    (st : VState) (kv : String × JSValue) :
    (valuationStep ps ms v st kv).results =
      st.results ++ [tokenResultOf ps ms v kv] := by
  unfold valuationStep tokenResultOf
  cases h : valuateTry ps ms v kv.1 kv.2 with
  | error e => simp
  | ok p =>
      obtain ⟨s, a, pr, l⟩ := p
      simp

theorem foldl_valuationStep_results (ps : PriceSets) (ms : MetaSets) (v : Bool)
    (entries : Obj JSValue) :
    ∀ st : VState,
      (List.foldl (valuationStep ps ms v) st entries).results =
        st.results ++ entries.map (tokenResultOf ps ms v) := by
  induction entries with
  | nil => intro st; simp
  | cons kv tl ih =>
      intro st
      simp only [List.foldl_cons, ih, valuationStep_results, List.map_cons,
        List.append_assoc, List.cons_append, List.nil_append]

theorem runValuation_results (ps : PriceSets) (ms : MetaSets) (v : Bool)
    (entries : Obj JSValue) :
    (runValuation ps ms v entries).results =
      entries.map (tokenResultOf ps ms v) := by
  unfold runValuation
  rw [foldl_valuationStep_results]
  simp

theorem foldl_jsAdd_insert_zero (s : String) (pre post : List TokenResult) :
    ∀ acc : JSNum,
      List.foldl (fun sum token => jsAdd sum token.usdAmount) acc
          (pre ++ ⟨JSNum.num 0, s⟩ :: post) =
        List.foldl (fun sum token => jsAdd sum token.usdAmount) acc (pre ++ post) := by
  induction pre with
  | nil => intro acc; simp [jsAdd_zero]
  | cons t tl ih => intro acc; simp only [List.cons_append, List.foldl_cons, ih]

theorem sumUsd_insert_zero (s : String) (pre post : List TokenResult) :
    sumUsd (pre ++ ⟨JSNum.num 0, s⟩ :: post) = sumUsd (pre ++ post) := by
  unfold sumUsd
  exact foldl_jsAdd_insert_zero s pre post (JSNum.num 0)

/-! ### Claim theorems -/

/-- C1: for every input on which the pipeline returns, the returned `usdTvl`
equals the sum of the `usdAmount` values of every per-token valuation result —
one result per normalized token, each computed in isolation, including the
zero `usdAmount` of tokens that hit the error branch or were degraded. -/
theorem claim_C1_usdTvl_is_sum (env : Env) (raw : RawBalances) (ts : Timestamp)
    (v : Bool) (cache : Obj JSNum) (tr : List NetCall) (bals : Obj JSValue)
    (h : balancesPhase env raw = Except.ok (tr, bals)) :
    ∃ out, computeTVL env raw ts v cache = Except.ok out ∧
      out.usdTvl = sumUsd (((normalizeAndClassify bals).normalized).map
        (tokenResultOf (pricesPhase env (normalizeAndClassify bals) ts cache)
          (metadataPhase env (normalizeAndClassify bals)).2 v)) := by
  simp only [computeTVL, h]
  exact ⟨_, rfl, by rw [runValuation_results]⟩

/-- A concrete environment in which every batch succeeds with no entries and
no price is known. -/
def envEmpty : Env :=
  ⟨fun _ _ => false, fun _ _ _ => none, fun _ _ => none, fun _ _ _ => none⟩

theorem claim_C1_witness :
    ∃ out, computeTVL envEmpty (RawBalances.map [("tok", JSValue.str "5")])
        Timestamp.now false [] = Except.ok out ∧
      out.usdTvl = sumUsd
        (((normalizeAndClassify [("tok", JSValue.str "5")]).normalized).map
          (tokenResultOf
            (pricesPhase envEmpty
              (normalizeAndClassify [("tok", JSValue.str "5")]) Timestamp.now [])
            (metadataPhase envEmpty
              (normalizeAndClassify [("tok", JSValue.str "5")])).2 false)) :=
  claim_C1_usdTvl_is_sum envEmpty (RawBalances.map [("tok", JSValue.str "5")])
    Timestamp.now false [] [] [("tok", JSValue.str "5")] rfl

/-- C2: a token whose per-token valuation raises yields exactly
`usdAmount = 0` with symbol `ERROR <original key>`, leaves both per-symbol
maps untouched, and its zero `usdAmount` still contributes (vacuously) to the
`usdTvl` sum wherever the result sits among the others. -/
theorem claim_C2_error_token (ps : PriceSets) (ms : MetaSets) (v : Bool)
    (st : VState) (addr : String) (bal : JSValue)
    (h : valuateTry ps ms v addr bal = Except.error ()) :
    valuationStep ps ms v st (addr, bal) =
      { st with
          results := st.results ++ [⟨JSNum.num 0, "ERROR " ++ addr⟩]
          logs := st.logs ++ [errorLog addr] } ∧
    ∀ pre post,
      sumUsd (pre ++ ⟨JSNum.num 0, "ERROR " ++ addr⟩ :: post) =
        sumUsd (pre ++ post) := by
  constructor
  · unfold valuationStep
    rw [h]
  · intro pre post
    exact sumUsd_insert_zero _ pre post

/-- A metadata result set in which every batched promise rejected. -/
def msRejected : MetaSets :=
  ⟨Except.error (), Except.error (), Except.error (), Except.error ()⟩

theorem claim_C2_witness :
    valuationStep ⟨[], [], []⟩ msRejected false ⟨[], [], [], []⟩
        ("0xa", JSValue.str "1") =
      { tokenBalances := ([] : Obj JSNum)
        usdTokenBalances := ([] : Obj JSNum)
        results := [⟨JSNum.num 0, "ERROR " ++ "0xa"⟩]
        logs := [errorLog "0xa"] } ∧
    ∀ pre post,
      sumUsd (pre ++ ⟨JSNum.num 0, "ERROR " ++ "0xa"⟩ :: post) =
        sumUsd (pre ++ post) :=
  claim_C2_error_token ⟨[], [], []⟩ msRejected false ⟨[], [], [], []⟩ "0xa"
    (JSValue.str "1") (by with_unfolding_all rfl)

/-- C3: a map input holding only the zero address with balance
`"1000000000000000000"` normalizes to key `"ethereum"` with amount 1,
classifies as an opaque id (both on-chain buckets empty, so no metadata call
is issued — the trace is empty), and with a pre-seeded price
`{ethereum: {usd: 2000}}` at `"now"` the output is `usdTvl = 2000`,
`tokenBalances = {ethereum: 1}`, `usdTokenBalances = {ethereum: 2000}`,
whatever the environment responds. -/
theorem claim_C3_native_asset (env : Env) :
    normalizeAndClassify [(zeroAddress, JSValue.str "1000000000000000000")] =
      ⟨[("ethereum", JSValue.num (JSNum.num 1))], [], [], ["ethereum"]⟩ ∧
    computeTVL env
        (RawBalances.map [(zeroAddress, JSValue.str "1000000000000000000")])
        Timestamp.now false [("ethereum", JSNum.num 2000)] =
      Except.ok
        { usdTvl := JSNum.num 2000
          usdTokenBalances := [("ethereum", JSNum.num 2000)]
          tokenBalances := [("ethereum", JSNum.num 1)]
          trace := []
          logs := [] } :=
  ⟨by with_unfolding_all rfl, by with_unfolding_all rfl⟩

theorem tokenMulticall_trace_mem (env : Env) (as : List String) (abi : String)
    (ch : Option String) (c : NetCall) (hc : c ∈ (tokenMulticall env as abi ch).1) :
    c.abi = abi ∧ c.chain = ch ∧ c.targets = as := by
  unfold tokenMulticall multiCallModel at hc
  by_cases h : as.isEmpty
  · simp [h] at hc
  · simp [h] at hc
    subst hc
    exact ⟨rfl, rfl, rfl⟩

theorem tokenMulticall_empty (env : Env) (abi : String) (ch : Option String) :
    tokenMulticall env [] abi ch = ([], Except.ok []) := rfl

/-- C4: on a map input, an empty ledger bucket never causes a batched
on-chain call: with no primary-ledger addresses the trace holds no
primary-ledger (chain-less) call and both primary metadata result sets are
empty; likewise for the secondary (`bsc`) bucket; and every issued call
targets one of the two address buckets, so the opaque-id bucket never gets an
on-chain call at all. -/
theorem claim_C4_empty_bucket_no_call (env : Env) (m : Obj JSValue)
    (ts : Timestamp) (v : Bool) (cache : Obj JSNum) (out : PipelineResult)
    (h : computeTVL env (RawBalances.map m) ts v cache = Except.ok out) :
    ((normalizeAndClassify m).ethereumAddresses = [] →
      (∀ c ∈ out.trace, c.chain ≠ none) ∧
      (metadataPhase env (normalizeAndClassify m)).2.allTokenSymbols = Except.ok [] ∧
      (metadataPhase env (normalizeAndClassify m)).2.allTokenDecimals = Except.ok []) ∧
    ((normalizeAndClassify m).bscAddresses = [] →
      (∀ c ∈ out.trace, c.chain ≠ some "bsc") ∧
      (metadataPhase env (normalizeAndClassify m)).2.bscTokenSymbols = Except.ok [] ∧
      (metadataPhase env (normalizeAndClassify m)).2.bscTokenDecimals = Except.ok []) ∧
    (∀ c ∈ out.trace,
      c.targets = (normalizeAndClassify m).ethereumAddresses ∨
      c.targets = (normalizeAndClassify m).bscAddresses) := by
  simp only [computeTVL, balancesPhase] at h
  rw [Except.ok.injEq] at h
  subst h
  refine ⟨?_, ?_, ?_⟩
  · intro he
    refine ⟨?_, ?_, ?_⟩
    · intro c hc
      simp only [List.nil_append, metadataPhase, List.mem_append] at hc
      rcases hc with ((h1 | h2) | h3) | h4
      · rw [he] at h1; simp [tokenMulticall_empty] at h1
      · rw [he] at h2; simp [tokenMulticall_empty] at h2
      · have := (tokenMulticall_trace_mem env _ _ _ c h3).2.1
        rw [this]; simp
      · have := (tokenMulticall_trace_mem env _ _ _ c h4).2.1
        rw [this]; simp
    · simp only [metadataPhase, he, tokenMulticall_empty]
    · simp only [metadataPhase, he, tokenMulticall_empty]
  · intro hb
    refine ⟨?_, ?_, ?_⟩
    · intro c hc
      simp only [List.nil_append, metadataPhase, List.mem_append] at hc
      rcases hc with ((h1 | h2) | h3) | h4
      · have := (tokenMulticall_trace_mem env _ _ _ c h1).2.1
        rw [this]; simp
      · have := (tokenMulticall_trace_mem env _ _ _ c h2).2.1
        rw [this]; simp
      · rw [hb] at h3; simp [tokenMulticall_empty] at h3
      · rw [hb] at h4; simp [tokenMulticall_empty] at h4
    · simp only [metadataPhase, hb, tokenMulticall_empty]
    · simp only [metadataPhase, hb, tokenMulticall_empty]
  · intro c hc
    simp only [List.nil_append, metadataPhase, List.mem_append] at hc
    rcases hc with ((h1 | h2) | h3) | h4
    · exact Or.inl (tokenMulticall_trace_mem env _ _ _ c h1).2.2
    · exact Or.inl (tokenMulticall_trace_mem env _ _ _ c h2).2.2
    · exact Or.inr (tokenMulticall_trace_mem env _ _ _ c h3).2.2
    · exact Or.inr (tokenMulticall_trace_mem env _ _ _ c h4).2.2

theorem claim_C4_witness :
    ((normalizeAndClassify [("id1", JSValue.str "1")]).ethereumAddresses = [] →
      (∀ c ∈ (PipelineResult.mk (JSNum.num 0) [("id1", JSNum.num 0)]
          [("id1", JSNum.num 1)] [] []).trace, c.chain ≠ none) ∧
      (metadataPhase envEmpty
        (normalizeAndClassify [("id1", JSValue.str "1")])).2.allTokenSymbols =
          Except.ok [] ∧
      (metadataPhase envEmpty
        (normalizeAndClassify [("id1", JSValue.str "1")])).2.allTokenDecimals =
          Except.ok []) ∧
    ((normalizeAndClassify [("id1", JSValue.str "1")]).bscAddresses = [] →
      (∀ c ∈ (PipelineResult.mk (JSNum.num 0) [("id1", JSNum.num 0)]
          [("id1", JSNum.num 1)] [] []).trace, c.chain ≠ some "bsc") ∧
      (metadataPhase envEmpty
        (normalizeAndClassify [("id1", JSValue.str "1")])).2.bscTokenSymbols =
          Except.ok [] ∧
      (metadataPhase envEmpty
        (normalizeAndClassify [("id1", JSValue.str "1")])).2.bscTokenDecimals =
          Except.ok []) ∧
    (∀ c ∈ (PipelineResult.mk (JSNum.num 0) [("id1", JSNum.num 0)]
        [("id1", JSNum.num 1)] [] []).trace,
      c.targets = (normalizeAndClassify [("id1", JSValue.str "1")]).ethereumAddresses ∨
      c.targets = (normalizeAndClassify [("id1", JSValue.str "1")]).bscAddresses) :=
  claim_C4_empty_bucket_no_call envEmpty [("id1", JSValue.str "1")]
    Timestamp.now false []
    (PipelineResult.mk (JSNum.num 0) [("id1", JSNum.num 0)]
      [("id1", JSNum.num 1)] [] [])
    (by with_unfolding_all rfl)

theorem exceptOkBind {α β : Type} (a : α) (f : α → Except Unit β) :
    (Except.ok a : Except Unit α) >>= f = f a := rfl

theorem exceptErrBind {α β : Type} (f : α → Except Unit β) :
    (Except.error () : Except Unit α) >>= f = Except.error () := rfl

/-- C5: a primary-ledger address whose decimals entry is absent while its
symbol entry is present values to amount 0 and `usdAmount` 0 (provided the
price table holds no NaN), appears in both per-symbol maps under the resolved
symbol, and the balance-to-amount conversion is never performed: the step's
outcome is the same for every balance value. -/
theorem claim_C5_missing_decimals (ps : PriceSets) (ms : MetaSets) (v : Bool)
    (st : VState) (addr : String) (bal : JSValue) (syms decs : List MCall)
    (sym : String)
    (h0 : addr.startsWith "0x" = true) (hb : addr.startsWith "bsc:" = false)
    (hs : ms.allTokenSymbols = Except.ok syms)
    (hsym : findOutput syms addr = some sym)
    (hd : ms.allTokenDecimals = Except.ok decs)
    (hdec : findOutput decs addr = none)
    (hp : ∀ p, objGet ps.ethereumTokenPrices addr.toLower = some p →
      p ≠ JSNum.nan) :
    valuationStep ps ms v st (addr, bal) =
      { tokenBalances := addTokenBalance st.tokenBalances sym (JSNum.num 0)
        usdTokenBalances := addTokenBalance st.usdTokenBalances sym (JSNum.num 0)
        results := st.results ++ [⟨JSNum.num 0, sym⟩]
        logs := st.logs ++ (if v then [decimalsWarning sym addr] else []) ++
          (defaultPrice v addr (objGet ps.ethereumTokenPrices addr.toLower)).2 } ∧
    ∀ bal', valuationStep ps ms v st (addr, bal') =
      valuationStep ps ms v st (addr, bal) := by
  have key : ∀ b : JSValue, valuationStep ps ms v st (addr, b) =
      { tokenBalances := addTokenBalance st.tokenBalances sym (JSNum.num 0)
        usdTokenBalances := addTokenBalance st.usdTokenBalances sym (JSNum.num 0)
        results := st.results ++ [⟨JSNum.num 0, sym⟩]
        logs := st.logs ++ (if v then [decimalsWarning sym addr] else []) ++
          (defaultPrice v addr (objGet ps.ethereumTokenPrices addr.toLower)).2 } := by
    intro b
    have hcore : valuateCore ps ms v addr b =
        Except.ok (sym, JSNum.num 0,
          objGet ps.ethereumTokenPrices addr.toLower,
          if v then [decimalsWarning sym addr] else []) := by
      simp [valuateCore, valuateChain, h0, hb, hs, hd, hsym, hdec, exceptOkBind]
    have husd : jsMul (JSNum.num 0)
        (defaultPrice v addr (objGet ps.ethereumTokenPrices addr.toLower)).1 =
        JSNum.num 0 := by
      cases hq : objGet ps.ethereumTokenPrices addr.toLower with
      | none => simp [defaultPrice, jsMul]
      | some p =>
          have := hp p hq
          exact jsMul_zero_left p this
    simp only [valuationStep, valuateTry, hcore, exceptOkBind, husd]
    simp [List.append_assoc]
  exact ⟨key bal, fun bal' => (key bal').trans (key bal).symm⟩

/-- A concrete price-set triple for witnesses: one priced primary token. -/
def psC5 : PriceSets := ⟨[("0xa", JSNum.num 5)], [], []⟩

/-- A concrete metadata quadruple for witnesses: a resolved symbol for
`0xa` and no resolved decimals anywhere. -/
def msC5 : MetaSets :=
  ⟨Except.ok [⟨"0xa", true, "TKN"⟩], Except.ok [], Except.ok [], Except.ok []⟩

/-- The empty aggregation state. -/
def stEmpty : VState := ⟨[], [], [], []⟩

theorem claim_C5_witness :
    valuationStep psC5 msC5 false stEmpty ("0xa", JSValue.str "7") =
      { tokenBalances := addTokenBalance stEmpty.tokenBalances "TKN" (JSNum.num 0)
        usdTokenBalances :=
          addTokenBalance stEmpty.usdTokenBalances "TKN" (JSNum.num 0)
        results := stEmpty.results ++ [⟨JSNum.num 0, "TKN"⟩]
        logs := stEmpty.logs ++
          (if false then [decimalsWarning "TKN" "0xa"] else []) ++
          (defaultPrice false "0xa"
            (objGet psC5.ethereumTokenPrices "0xa".toLower)).2 } ∧
    ∀ bal', valuationStep psC5 msC5 false stEmpty ("0xa", bal') =
      valuationStep psC5 msC5 false stEmpty ("0xa", JSValue.str "7") :=
  claim_C5_missing_decimals psC5 msC5 false stEmpty "0xa" (JSValue.str "7")
    [⟨"0xa", true, "TKN"⟩] [] "TKN"
    (by with_unfolding_all rfl) (by with_unfolding_all rfl)
    rfl (by with_unfolding_all rfl) rfl rfl
    (by
      intro p hq
      have h5 : objGet psC5.ethereumTokenPrices ("0xa".toLower) =
          some (JSNum.num 5) := by with_unfolding_all rfl
      rw [h5] at hq
      cases hq
      decide)

/-- C6: a token that resolves a symbol and a (non-NaN) amount but whose price
lookup returns nothing is valued with price 0: `usdAmount = 0`, while
`tokenBalances` records the resolved amount under the resolved symbol; the
token does not hit the error branch (the step returns normally, with at most
an informational log). -/
theorem claim_C6_missing_price (ps : PriceSets) (ms : MetaSets) (v : Bool)
    (st : VState) (addr : String) (bal : JSValue) (sym : String)
    (amount : JSNum) (l1 : List String)
    (hc : valuateCore ps ms v addr bal = Except.ok (sym, amount, none, l1))
    (ha : amount ≠ JSNum.nan) :
    valuationStep ps ms v st (addr, bal) =
      { tokenBalances := addTokenBalance st.tokenBalances sym amount
        usdTokenBalances := addTokenBalance st.usdTokenBalances sym (JSNum.num 0)
        results := st.results ++ [⟨JSNum.num 0, sym⟩]
        logs := st.logs ++ l1 ++ (if v then [missingPriceLog addr] else []) } := by
  have husd : jsMul amount (JSNum.num 0) = JSNum.num 0 := jsMul_zero_right amount ha
  simp only [valuationStep, valuateTry, hc, exceptOkBind, defaultPrice, husd]
  simp [List.append_assoc]

theorem claim_C6_witness :
    valuationStep ⟨[], [], []⟩ msC5 false stEmpty ("tok", JSValue.str "5") =
      { tokenBalances := addTokenBalance stEmpty.tokenBalances "tok" (JSNum.num 5)
        usdTokenBalances :=
          addTokenBalance stEmpty.usdTokenBalances "tok" (JSNum.num 0)
        results := stEmpty.results ++ [⟨JSNum.num 0, "tok"⟩]
        logs := stEmpty.logs ++ [] ++
          (if false then [missingPriceLog "tok"] else []) } :=
  claim_C6_missing_price ⟨[], [], []⟩ msC5 false stEmpty "tok"
    (JSValue.str "5") "tok" (JSNum.num 5) []
    (by with_unfolding_all rfl) (by decide)

/-- C10: a map entry whose balance string does not parse as a number does not
take the error branch: `Number()` yields NaN instead of raising, so with
resolvable symbol, decimals and price the token is recorded in both per-symbol
maps under its resolved symbol with NaN values, not tagged `ERROR <key>`. -/
theorem claim_C10_nan_balance (ps : PriceSets) (ms : MetaSets) (v : Bool)
    (st : VState) (addr s : String) (syms decs : List MCall) (sym d : String)
    (p : JSNum)
    (h0 : addr.startsWith "0x" = true) (hb : addr.startsWith "bsc:" = false)
    (hs : ms.allTokenSymbols = Except.ok syms)
    (hsym : findOutput syms addr = some sym)
    (hd : ms.allTokenDecimals = Except.ok decs)
    (hdec : findOutput decs addr = some d)
    (hnan : jsParseNumber s = JSNum.nan)
    (hp : objGet ps.ethereumTokenPrices addr.toLower = some p) :
    valuationStep ps ms v st (addr, JSValue.str s) =
      { tokenBalances := addTokenBalance st.tokenBalances sym JSNum.nan
        usdTokenBalances := addTokenBalance st.usdTokenBalances sym JSNum.nan
        results := st.results ++ [⟨JSNum.nan, sym⟩]
        logs := st.logs } := by
  have hcore : valuateCore ps ms v addr (JSValue.str s) =
      Except.ok (sym, JSNum.nan, some p, []) := by
    simp [valuateCore, valuateChain, h0, hb, hs, hd, hsym, hdec, exceptOkBind,
      jsToNumber, hnan, jsDiv_nan_left, hp]
  simp only [valuationStep, valuateTry, hcore, exceptOkBind, defaultPrice]
  simp [jsMul_nan_left]

/-- A concrete metadata quadruple for the NaN-balance witness: symbol and
decimals both resolved for `0xa`. -/
def msC10 : MetaSets :=
  ⟨Except.ok [⟨"0xa", true, "TKN"⟩], Except.ok [⟨"0xa", true, "18"⟩],
    Except.ok [], Except.ok []⟩

theorem claim_C10_witness :
    valuationStep psC5 msC10 false stEmpty ("0xa", JSValue.str "abc") =
      { tokenBalances := addTokenBalance stEmpty.tokenBalances "TKN" JSNum.nan
        usdTokenBalances :=
          addTokenBalance stEmpty.usdTokenBalances "TKN" JSNum.nan
        results := stEmpty.results ++ [⟨JSNum.nan, "TKN"⟩]
        logs := stEmpty.logs } :=
  claim_C10_nan_balance psC5 msC10 false stEmpty "0xa" "abc"
    [⟨"0xa", true, "TKN"⟩] [⟨"0xa", true, "18"⟩] "TKN" "18" (JSNum.num 5)
    (by with_unfolding_all rfl) (by with_unfolding_all rfl)
    rfl (by with_unfolding_all rfl) rfl (by with_unfolding_all rfl)
    (by with_unfolding_all rfl) (by with_unfolding_all rfl)

/-- C7: per-chain dispatch.  A key with the `bsc:` prefix is valued by the
chain branch applied to the secondary-ledger price/metadata result sets with
the prefix stripped off the address, and its valuation is unchanged by
arbitrary changes to the primary-ledger and opaque-id sets; a key with the
`0x` prefix is valued against the primary-ledger sets and is unchanged by
arbitrary changes to the secondary-ledger and opaque-id sets. -/
theorem claim_C7_ledger_dispatch (ps : PriceSets) (ms : MetaSets) (v : Bool) :
    (∀ addr bal, addr.startsWith "bsc:" = true → addr.startsWith "0x" = false →
      valuateCore ps ms v addr bal =
        valuateChain ps.bscTokenPrices ms.bscTokenSymbols ms.bscTokenDecimals
          v addr (addr.drop "bsc:".length) bal ∧
      ∀ eps nep esy ede,
        valuateCore
          { ps with ethereumTokenPrices := eps, nonEthereumTokenPrices := nep }
          { ms with allTokenSymbols := esy, allTokenDecimals := ede }
          v addr bal =
        valuateCore ps ms v addr bal) ∧
    (∀ addr bal, addr.startsWith "0x" = true → addr.startsWith "bsc:" = false →
      valuateCore ps ms v addr bal =
        valuateChain ps.ethereumTokenPrices ms.allTokenSymbols
          ms.allTokenDecimals v addr addr bal ∧
      ∀ bps nep bsy bde,
        valuateCore
          { ps with bscTokenPrices := bps, nonEthereumTokenPrices := nep }
          { ms with bscTokenSymbols := bsy, bscTokenDecimals := bde }
          v addr bal =
        valuateCore ps ms v addr bal) := by
  constructor
  · intro addr bal hb h0
    constructor
    · simp [valuateCore, hb, h0]
    · intro eps nep esy ede
      simp [valuateCore, hb, h0]
  · intro addr bal h0 hb
    constructor
    · simp [valuateCore, h0, hb]
    · intro bps nep bsy bde
      simp [valuateCore, h0, hb]

theorem claim_C7_witness :
    (valuateCore psC5 msC5 false "bsc:0xa" (JSValue.str "1") =
      valuateChain psC5.bscTokenPrices msC5.bscTokenSymbols
        msC5.bscTokenDecimals false "bsc:0xa"
        ("bsc:0xa".drop "bsc:".length) (JSValue.str "1") ∧
      ∀ eps nep esy ede,
        valuateCore
          { psC5 with ethereumTokenPrices := eps, nonEthereumTokenPrices := nep }
          { msC5 with allTokenSymbols := esy, allTokenDecimals := ede }
          false "bsc:0xa" (JSValue.str "1") =
        valuateCore psC5 msC5 false "bsc:0xa" (JSValue.str "1")) ∧
    (valuateCore psC5 msC5 false "0xa" (JSValue.str "1") =
      valuateChain psC5.ethereumTokenPrices msC5.allTokenSymbols
        msC5.allTokenDecimals false "0xa" "0xa" (JSValue.str "1") ∧
      ∀ bps nep bsy bde,
        valuateCore
          { psC5 with bscTokenPrices := bps, nonEthereumTokenPrices := nep }
          { msC5 with bscTokenSymbols := bsy, bscTokenDecimals := bde }
          false "0xa" (JSValue.str "1") =
        valuateCore psC5 msC5 false "0xa" (JSValue.str "1")) :=
  ⟨(claim_C7_ledger_dispatch psC5 msC5 false).1 "bsc:0xa" (JSValue.str "1")
      (by with_unfolding_all rfl) (by with_unfolding_all rfl),
   (claim_C7_ledger_dispatch psC5 msC5 false).2 "0xa" (JSValue.str "1")
      (by with_unfolding_all rfl) (by with_unfolding_all rfl)⟩

theorem exceptMapOk {α β : Type} (f : α → β) (a : α) :
    (Except.ok a : Except Unit α).map f = Except.ok (f a) := rfl

theorem exceptMapErr {α β : Type} (f : α → β) (e : Unit) :
    (Except.error e : Except Unit α).map f = Except.error e := rfl

theorem exceptErrBindE {α β : Type} (e : Unit) (f : α → Except Unit β) :
    (Except.error e : Except Unit α) >>= f = Except.error e := rfl

theorem valuateChain_values (cp : Obj JSNum) (cs cd : Except Unit (List MCall))
    (v v' : Bool) (a na : String) (b : JSValue) :
    (valuateChain cp cs cd v a na b).map (fun r => (r.1, r.2.1, r.2.2.1)) =
      (valuateChain cp cs cd v' a na b).map (fun r => (r.1, r.2.1, r.2.2.1)) := by
  cases cs with
  | error e => rfl
  | ok syms =>
      cases cd with
      | error e => rfl
      | ok decs =>
          cases hfd : findOutput decs na <;>
            simp [valuateChain, exceptOkBind, hfd, exceptMapOk]

theorem valuateCore_values (ps : PriceSets) (ms : MetaSets) (v v' : Bool)
    (a : String) (b : JSValue) :
    (valuateCore ps ms v a b).map (fun r => (r.1, r.2.1, r.2.2.1)) =
      (valuateCore ps ms v' a b).map (fun r => (r.1, r.2.1, r.2.2.1)) := by
  unfold valuateCore
  by_cases hx : a.startsWith "0x" = true
  · by_cases hbsc : a.startsWith "bsc:" = true
    · simp only [hx, hbsc, Bool.true_or, if_true, if_pos]
      exact valuateChain_values _ _ _ v v' _ _ _
    · simp only [hx, hbsc, Bool.true_or, if_true, if_neg, Bool.false_eq_true,
        if_false]
      exact valuateChain_values _ _ _ v v' _ _ _
  · by_cases hbsc : a.startsWith "bsc:" = true
    · simp only [hx, hbsc, Bool.or_true, if_true, if_pos]
      exact valuateChain_values _ _ _ v v' _ _ _
    · simp only [hx, hbsc]
      simp

theorem valuateTry_values (ps : PriceSets) (ms : MetaSets) (v v' : Bool)
    (a : String) (b : JSValue) :
    (valuateTry ps ms v a b).map (fun r => (r.1, r.2.1, r.2.2.1)) =
      (valuateTry ps ms v' a b).map (fun r => (r.1, r.2.1, r.2.2.1)) := by
  have h := valuateCore_values ps ms v v' a b
  cases hc : valuateCore ps ms v a b with
  | error e =>
      cases hc' : valuateCore ps ms v' a b with
      | error e' =>
          simp [valuateTry, hc, hc', exceptErrBindE, exceptMapErr]
      | ok p' =>
          rw [hc, hc'] at h
          simp [exceptMapOk, exceptMapErr] at h
  | ok p =>
      cases hc' : valuateCore ps ms v' a b with
      | error e' =>
          rw [hc, hc'] at h
          simp [exceptMapOk, exceptMapErr] at h
      | ok p' =>
          rw [hc, hc'] at h
          obtain ⟨s1, a1, pr1, l1⟩ := p
          obtain ⟨s2, a2, pr2, l2⟩ := p'
          simp [exceptMapOk] at h
          obtain ⟨hse, hae, hpe⟩ := h
          subst hse; subst hae; subst hpe
          cases pr1 <;>
            simp [valuateTry, hc, hc', exceptOkBind, defaultPrice, exceptMapOk]

theorem valuationStep_values (ps : PriceSets) (ms : MetaSets) (v v' : Bool)
    (st st' : VState) (kv : String × JSValue)
    (h1 : st.tokenBalances = st'.tokenBalances)
    (h2 : st.usdTokenBalances = st'.usdTokenBalances)
    (h3 : st.results = st'.results) :
    (valuationStep ps ms v st kv).tokenBalances =
      (valuationStep ps ms v' st' kv).tokenBalances ∧
    (valuationStep ps ms v st kv).usdTokenBalances =
      (valuationStep ps ms v' st' kv).usdTokenBalances ∧
    (valuationStep ps ms v st kv).results =
      (valuationStep ps ms v' st' kv).results := by
  have h := valuateTry_values ps ms v v' kv.1 kv.2
  cases hc : valuateTry ps ms v kv.1 kv.2 with
  | error e =>
      cases hc' : valuateTry ps ms v' kv.1 kv.2 with
      | error e' => simp [valuationStep, hc, hc', h1, h2, h3]
      | ok p' =>
          rw [hc, hc'] at h
          simp [exceptMapOk, exceptMapErr] at h
  | ok p =>
      cases hc' : valuateTry ps ms v' kv.1 kv.2 with
      | error e' =>
          rw [hc, hc'] at h
          simp [exceptMapOk, exceptMapErr] at h
      | ok p' =>
          rw [hc, hc'] at h
          obtain ⟨s1, a1, pr1, l1⟩ := p
          obtain ⟨s2, a2, pr2, l2⟩ := p'
          simp [exceptMapOk] at h
          obtain ⟨hse, hae, hpe⟩ := h
          subst hse; subst hae; subst hpe
          simp [valuationStep, hc, hc', h1, h2, h3]

theorem foldl_valuationStep_values (ps : PriceSets) (ms : MetaSets)
    (v v' : Bool) (entries : Obj JSValue) :
    ∀ st st' : VState,
      st.tokenBalances = st'.tokenBalances →
      st.usdTokenBalances = st'.usdTokenBalances →
      st.results = st'.results →
      (List.foldl (valuationStep ps ms v) st entries).tokenBalances =
        (List.foldl (valuationStep ps ms v') st' entries).tokenBalances ∧
      (List.foldl (valuationStep ps ms v) st entries).usdTokenBalances =
        (List.foldl (valuationStep ps ms v') st' entries).usdTokenBalances ∧
      (List.foldl (valuationStep ps ms v) st entries).results =
        (List.foldl (valuationStep ps ms v') st' entries).results := by
  induction entries with
  | nil => intro st st' h1 h2 h3; exact ⟨h1, h2, h3⟩
  | cons kv tl ih =>
      intro st st' h1 h2 h3
      obtain ⟨g1, g2, g3⟩ := valuationStep_values ps ms v v' st st' kv h1 h2 h3
      exact ih (valuationStep ps ms v st kv) (valuationStep ps ms v' st' kv)
        g1 g2 g3

/-- C8: the returned structure `{usdTvl, usdTokenBalances, tokenBalances}` is
identical with `verbose = true` and `verbose = false`: the flag only gates
diagnostic logging and never changes any returned value. -/
theorem claim_C8_verbose_invariant (env : Env) (raw : RawBalances)
    (ts : Timestamp) (cache : Obj JSNum) :
    (computeTVL env raw ts true cache).map returnedStructure =
      (computeTVL env raw ts false cache).map returnedStructure := by
  unfold computeTVL
  cases hb : balancesPhase env raw with
  | error e => rfl
  | ok tb =>
      obtain ⟨tr, bals⟩ := tb
      obtain ⟨g1, g2, g3⟩ := foldl_valuationStep_values
        (pricesPhase env (normalizeAndClassify bals) ts cache)
        (metadataPhase env (normalizeAndClassify bals)).2 true false
        (normalizeAndClassify bals).normalized
        ⟨[], [], [], []⟩ ⟨[], [], [], []⟩ rfl rfl rfl
      simp only [exceptMapOk, returnedStructure, runValuation]
      rw [g1, g2, g3]

/-- The canonical key an input entry is stored under by the normalization
loop: the zero address is rewritten to `"ethereum"`. -/
def normKey (kv : String × JSValue) : String :=
  if kv.1 = zeroAddress then "ethereum" else kv.1

/-- The normalized value an input entry is stored with: the zero address's
balance divided by `10 ** 18`, and object values via `.toFixed()`. -/
def normVal (kv : String × JSValue) : JSValue :=
  let bal0 :=
    if kv.1 = zeroAddress then
      JSValue.num (jsDiv (jsToNumber kv.2) (JSNum.num ((10 : ℚ) ^ (18 : ℕ))))
    else kv.2
  match bal0 with
  | JSValue.big s => JSValue.str s
  | v => v

theorem normalizeStep_normalized (acc : NormResult) (kv : String × JSValue) :
    (normalizeStep acc kv).normalized =
      objSet acc.normalized (normKey kv) (normVal kv) := by
  unfold normalizeStep normKey normVal
  by_cases hz : kv.1 = zeroAddress <;>
    simp only [hz, if_true, if_false, reduceIte] <;>
    split <;>
    (try split) <;>
    simp

/-- Whether a JS object has an entry at the key. -/
def containsKey {α : Type} (m : Obj α) (k : String) : Bool :=
  m.any (fun p => p.1 = k)

/-- How many entries of the association list carry the key (a genuine JS
object has at most one). -/
def keyCount {α : Type} (m : Obj α) (k : String) : ℕ :=
  m.countP (fun p => p.1 = k)

theorem containsKey_eq_isSome {α : Type} (m : Obj α) (k : String) :
    containsKey m k = (objGet m k).isSome := by
  unfold containsKey objGet
  cases hf : m.find? (fun p => decide (p.1 = k)) with
  | none =>
      have h2 : (m.any fun p => decide (p.1 = k)) = false := by
        rw [List.any_eq_false]
        rw [List.find?_eq_none] at hf
        intro x hx
        simpa using hf x hx
      rw [h2]
      rfl
  | some q =>
      have hmem := List.mem_of_find?_eq_some hf
      have hq : q.1 = k := by simpa using List.find?_some hf
      have h2 : (m.any fun p => decide (p.1 = k)) = true :=
        List.any_eq_true.mpr ⟨q, hmem, by simpa using hq⟩
      rw [h2]
      rfl

theorem keyCount_objSet_ne {α : Type} (m : Obj α) (k k' : String) (v : α)
    (h : k' ≠ k) : keyCount (objSet m k' v) k = keyCount m k := by
  unfold keyCount objSet
  by_cases ha : m.any (fun p => p.1 = k')
  · simp only [ha, if_true, List.countP_map]
    congr 1
    funext p
    by_cases hp : p.1 = k'
    · have hk : ¬ p.1 = k := by rw [hp]; exact h
      simp [Function.comp, hp, hk, h]
    · simp [Function.comp, hp]
  · rw [if_neg ha, List.countP_append]
    simp [List.countP_cons, h]

theorem keyCount_objSet_contains {α : Type} (m : Obj α) (k : String) (v : α)
    (hc : containsKey m k = true) : keyCount (objSet m k v) k = keyCount m k := by
  unfold keyCount objSet
  unfold containsKey at hc
  simp only [hc, if_true, List.countP_map]
  congr 1
  funext p
  by_cases hp : p.1 = k
  · simp [hp, Function.comp]
  · simp [hp, Function.comp]

theorem keyCount_objSet_new {α : Type} (m : Obj α) (k : String) (v : α)
    (hc : containsKey m k = false) :
    keyCount (objSet m k v) k = keyCount m k + 1 := by
  unfold keyCount objSet
  unfold containsKey at hc
  simp [hc, List.countP_append]

theorem norm_fold_other :
    ∀ (l : Obj JSValue) (acc : NormResult),
      (∀ kv ∈ l, normKey kv ≠ "ethereum") →
      objGet (List.foldl normalizeStep acc l).normalized "ethereum" =
        objGet acc.normalized "ethereum" ∧
      keyCount (List.foldl normalizeStep acc l).normalized "ethereum" =
        keyCount acc.normalized "ethereum" := by
  intro l
  induction l with
  | nil => intro acc h; exact ⟨rfl, rfl⟩
  | cons kv tl ih =>
      intro acc h
      have hkv : normKey kv ≠ "ethereum" := h kv (by simp)
      obtain ⟨g1, g2⟩ := ih (normalizeStep acc kv)
        (fun x hx => h x (by simp [hx]))
      constructor
      · rw [List.foldl_cons, g1, normalizeStep_normalized]
        exact objGet_objSet_ne _ _ _ _ (Ne.symm hkv)
      · rw [List.foldl_cons, g2, normalizeStep_normalized]
        exact keyCount_objSet_ne _ _ _ _ hkv

theorem norm_two_writes (la lb lc : Obj JSValue) (ka kb : String × JSValue)
    (hna : ∀ kv ∈ la, normKey kv ≠ "ethereum")
    (hnb : ∀ kv ∈ lb, normKey kv ≠ "ethereum")
    (hnc : ∀ kv ∈ lc, normKey kv ≠ "ethereum")
    (hka : normKey ka = "ethereum") (hkb : normKey kb = "ethereum") :
    objGet (normalizeAndClassify (la ++ ka :: lb ++ kb :: lc)).normalized
        "ethereum" = some (normVal kb) ∧
    keyCount (normalizeAndClassify (la ++ ka :: lb ++ kb :: lc)).normalized
        "ethereum" = 1 := by
  unfold normalizeAndClassify
  rw [List.foldl_append, List.foldl_cons, List.foldl_append, List.foldl_cons]
  obtain ⟨a1, a2⟩ := norm_fold_other la ⟨[], [], [], []⟩ hna
  have hBget : objGet (normalizeStep
      (List.foldl normalizeStep ⟨[], [], [], []⟩ la) ka).normalized
      "ethereum" = some (normVal ka) := by
    rw [normalizeStep_normalized, hka]
    exact objGet_objSet_self _ _ _
  have hBcount : keyCount (normalizeStep
      (List.foldl normalizeStep ⟨[], [], [], []⟩ la) ka).normalized
      "ethereum" = 1 := by
    rw [normalizeStep_normalized, hka]
    rw [keyCount_objSet_new]
    · rw [a2]; rfl
    · rw [containsKey_eq_isSome, a1]
      rfl
  obtain ⟨b1, b2⟩ := norm_fold_other lb
    (normalizeStep (List.foldl normalizeStep ⟨[], [], [], []⟩ la) ka) hnb
  have hCget : objGet (normalizeStep (List.foldl normalizeStep
      (normalizeStep (List.foldl normalizeStep ⟨[], [], [], []⟩ la) ka) lb)
      kb).normalized "ethereum" = some (normVal kb) := by
    rw [normalizeStep_normalized, hkb]
    exact objGet_objSet_self _ _ _
  have hCcount : keyCount (normalizeStep (List.foldl normalizeStep
      (normalizeStep (List.foldl normalizeStep ⟨[], [], [], []⟩ la) ka) lb)
      kb).normalized "ethereum" = 1 := by
    rw [normalizeStep_normalized, hkb]
    rw [keyCount_objSet_contains]
    · rw [b2, hBcount]
    · rw [containsKey_eq_isSome, b1, hBget]
      rfl
  obtain ⟨c1, c2⟩ := norm_fold_other lc
    (normalizeStep (List.foldl normalizeStep
      (normalizeStep (List.foldl normalizeStep ⟨[], [], [], []⟩ la) ka) lb) kb)
    hnc
  exact ⟨by rw [c1, hCget], by rw [c2, hCcount]⟩

/-- C9: a map input containing both the zero-address key and the literal
`"ethereum"` key has both entries written under the single normalized key
`"ethereum"`; whichever occurs later in iteration order overwrites the other,
exactly one balance survives into the normalized map (its key count is 1),
and the two balances are never summed. -/
theorem claim_C9_overwrite (l1 l2 l3 : Obj JSValue) (v1 v2 : JSValue)
    (h1 : ∀ kv ∈ l1, kv.1 ≠ zeroAddress ∧ kv.1 ≠ "ethereum")
    (h2 : ∀ kv ∈ l2, kv.1 ≠ zeroAddress ∧ kv.1 ≠ "ethereum")
    (h3 : ∀ kv ∈ l3, kv.1 ≠ zeroAddress ∧ kv.1 ≠ "ethereum") :
    (objGet (normalizeAndClassify
        (l1 ++ (zeroAddress, v1) :: l2 ++ ("ethereum", v2) :: l3)).normalized
        "ethereum" = some (normVal ("ethereum", v2)) ∧
     keyCount (normalizeAndClassify
        (l1 ++ (zeroAddress, v1) :: l2 ++ ("ethereum", v2) :: l3)).normalized
        "ethereum" = 1) ∧
    (objGet (normalizeAndClassify
        (l1 ++ ("ethereum", v2) :: l2 ++ (zeroAddress, v1) :: l3)).normalized
        "ethereum" = some (normVal (zeroAddress, v1)) ∧
     keyCount (normalizeAndClassify
        (l1 ++ ("ethereum", v2) :: l2 ++ (zeroAddress, v1) :: l3)).normalized
        "ethereum" = 1) := by
  have conv : ∀ (l : Obj JSValue),
      (∀ kv ∈ l, kv.1 ≠ zeroAddress ∧ kv.1 ≠ "ethereum") →
      ∀ kv ∈ l, normKey kv ≠ "ethereum" := by
    intro l hl kv hkv
    obtain ⟨ha, hb⟩ := hl kv hkv
    unfold normKey
    rw [if_neg ha]
    exact hb
  have hzero : normKey (zeroAddress, v1) = "ethereum" := by
    unfold normKey
    rw [if_pos rfl]
  have heth : normKey ("ethereum", v2) = "ethereum" := by
    unfold normKey
    have hfst : (("ethereum", v2) : String × JSValue).1 = "ethereum" := rfl
    rw [hfst]
    rw [if_neg (by with_unfolding_all decide)]
  exact ⟨norm_two_writes l1 l2 l3 (zeroAddress, v1) ("ethereum", v2)
      (conv l1 h1) (conv l2 h2) (conv l3 h3) hzero heth,
    norm_two_writes l1 l2 l3 ("ethereum", v2) (zeroAddress, v1)
      (conv l1 h1) (conv l2 h2) (conv l3 h3) heth hzero⟩

theorem claim_C9_witness :
    (objGet (normalizeAndClassify
        ([] ++ (zeroAddress, JSValue.str "2000000000000000000") ::
          [] ++ ("ethereum", JSValue.str "7") :: [])).normalized
        "ethereum" = some (normVal ("ethereum", JSValue.str "7")) ∧
     keyCount (normalizeAndClassify
        ([] ++ (zeroAddress, JSValue.str "2000000000000000000") ::
          [] ++ ("ethereum", JSValue.str "7") :: [])).normalized
        "ethereum" = 1) ∧
    (objGet (normalizeAndClassify
        ([] ++ ("ethereum", JSValue.str "7") ::
          [] ++ (zeroAddress, JSValue.str "2000000000000000000") :: [])).normalized
        "ethereum" =
          some (normVal (zeroAddress, JSValue.str "2000000000000000000")) ∧
     keyCount (normalizeAndClassify
        ([] ++ ("ethereum", JSValue.str "7") ::
          [] ++ (zeroAddress, JSValue.str "2000000000000000000") :: [])).normalized
        "ethereum" = 1) :=
  claim_C9_overwrite [] [] [] (JSValue.str "2000000000000000000")
    (JSValue.str "7") (by simp) (by simp) (by simp)
